import Mathlib

/-!
Shallow embedding of the request state-transition engine of
`app/domain/service/process_maker/request_service.py` together with the
data model of `app/domain/model/process_maker/request.py`.

Conventions:
* Python snake_case names become camelCase.
* SQLAlchemy entities become plain structures; relationship collections
  become list fields; nullable foreign keys become `Option Nat`.
* External collaborators (repositories, `ProcessService`, `ActionService`,
  `GroupService`, the field validators) are not part of the four source
  files; they are modelled from the spec and carry a
  `Modelled from the spec:` doc comment.
* Raising an exception becomes returning `.error e`; operations that touch
  the persistence layer return the resulting store alongside the
  `Except`-result, so that writes performed before an exception stay
  visible (the store models what has been persisted).
-/

namespace ProcessMaker

/-- Error taxonomy of the service layer.  `recordNotFound` models
`error_collection.RecordNotFound`, `dontHaveRight` models
`error_collection.DontHaveRight` (carrying the offending user id that the
Python message interpolates), `invalidInput` models the validation error
raised by `validate()` (carrying the entity kind), and `noneTypeError`
models a Python `AttributeError` on `None` (e.g. `current_state` unset). -/
inductive Err where
  | recordNotFound : Err
  | dontHaveRight : Nat → Err
  | invalidInput : String → Err
  | noneTypeError : Err
deriving Repr, DecidableEq

/-- A group, as referenced by an action's `target` collection. -/
structure Group where
  id : Nat
deriving Repr, DecidableEq

/-- An action: named transition trigger with a target set of authorized
groups (`action.target` in the source). -/
structure Action where
  id : Nat
  target : List Group
deriving Repr, DecidableEq

/-- A route: directed edge to `next_state_id`, gating the actions in
`route.action`. -/
structure Route where
  id : Nat
  nextStateId : Nat
  action : List Action
deriving Repr, DecidableEq

/-- A state: graph node owning its outgoing routes (`state.route`) and
belonging to one process. -/
structure State where
  id : Nat
  processId : Nat
  route : List Route
deriving Repr, DecidableEq

/-- A process definition; `startStateId` is its designated start state
(consumed through `ProcessService.find_start_point`). -/
structure Process where
  id : Nat
  startStateId : Option Nat
deriving Repr, DecidableEq

/-- A user (only the id is relevant to this service). -/
structure User where
  id : Nat
deriving Repr, DecidableEq

/-- `RequestAction`: one transition event.  `routeToNextState` embeds the
plain (non-column) attribute `route_to_next_state`, which is `None` unless
set in memory by `create_request_action`. -/
structure RequestAction where
  requestId : Nat
  actionId : Nat
  userId : Nat
  routeId : Nat
  status : String
  routeToNextState : Option Route
deriving Repr, DecidableEq

/-- `RequestData`: payload snapshot attached to a request.  The Python
`dict` payload is abstracted as its serialized `String` form. -/
structure RequestData where
  requestId : Nat
  dataType : String
  status : String
  name : String
  value : String
deriving Repr, DecidableEq

/-- `RequestNote`: note/audit entry attached to a request. -/
structure RequestNote where
  requestId : Nat
  userId : Nat
  noteType : String
  status : String
  note : String
deriving Repr, DecidableEq

/-- `RequestStakeholder`: a user or group carbon-copied on a request. -/
structure RequestStakeholder where
  requestId : Nat
  stakeholderId : Nat
  stakeholderType : String
deriving Repr, DecidableEq

/-- The `Request` entity.  `currentStateId` is `none` until the creation
flow assigns the start state; `requestAction` is the owned history
collection. -/
structure Request where
  id : Nat
  title : String
  userId : Nat
  processId : Nat
  currentStateId : Option Nat
  status : String
  entityModel : String
  entityId : Nat
  requestAction : List RequestAction
deriving Repr, DecidableEq

/-- The read-only external world: process graph, users and group
membership, as supplied by the lookup collaborators of §6. -/
structure Env where
  processes : List Process
  users : List User
  actions : List Action
  states : List State
  /-- membership pairs `(group_id, user_id)` -/
  memberships : List (Nat × Nat)
deriving Repr, DecidableEq

/-- The mutable persistence layer owned by the request repositories.
`nextRequestId` models primary-key assignment on `create`. -/
structure Store where
  requests : List Request
  requestData : List RequestData
  requestNotes : List RequestNote
  requestStakeholders : List RequestStakeholder
  nextRequestId : Nat
deriving Repr, DecidableEq

/-- Modelled from the spec: state lookup backing the `current_state`
relationship (resolve a `State` by id, `none` when absent). -/
def findState (env : Env) (stateId : Nat) : Option State :=
  env.states.find? (fun s => s.id == stateId)

/-- Modelled from the spec: `GroupService.is_user_in_group`
(`is_user_member(group_id, user_id) -> bool` of §6). -/
def isUserInGroup (env : Env) (groupId : Nat) (userId : Nat) : Bool :=
  env.memberships.contains (groupId, userId)

/-- Modelled from the spec: `ProcessService.find_one` — resolve the
process, failing `NotFound` when absent. -/
def processFindOne (env : Env) (processId : Nat) : Except Err Process :=
  match env.processes.find? (fun p => p.id == processId) with
  | some p => .ok p
  | none => .error .recordNotFound

/-- Modelled from the spec: `ProcessService.find_start_point` — resolve
the process's designated start state, failing `NotFound` when the process
is absent or has none. -/
def processFindStartPoint (env : Env) (processId : Nat) : Except Err State :=
  match env.processes.find? (fun p => p.id == processId) with
  | none => .error .recordNotFound
  | some p =>
    match p.startStateId with
    | none => .error .recordNotFound
    | some sid =>
      match findState env sid with
      | some st => .ok st
      | none => .error .recordNotFound

/-- Modelled from the spec: `ActionService.find_one` — re-resolve an
action's full definition by id, failing `NotFound` when absent. -/
def actionFindOne (env : Env) (actionId : Nat) : Except Err Action :=
  match env.actions.find? (fun a => a.id == actionId) with
  | some a => .ok a
  | none => .error .recordNotFound

/-- `UserService.find_by_id` (source `app/domain/usecase/user.py`):
look the user up, failing `record_not_found` when absent.  The backing
repository and the id validator are external and modelled from the spec
as a plain lookup. -/
def userFindById (env : Env) (userId : Nat) : Except Err User :=
  match env.users.find? (fun u => u.id == userId) with
  | some u => .ok u
  | none => .error .recordNotFound

/-- Modelled from the spec: `RequestData.validate()` — required fields
well-formed: non-empty name and value, kind in `json | text`. -/
def requestDataValid (rd : RequestData) : Bool :=
  rd.name != "" && rd.value != "" && (rd.dataType == "json" || rd.dataType == "text")

/-- Modelled from the spec: `RequestNote.validate()` — non-empty note
text, kind in `user_note | system_note`. -/
def requestNoteValid (rn : RequestNote) : Bool :=
  rn.note != "" && (rn.noteType == "user_note" || rn.noteType == "system_note")

/-- Modelled from the spec: `RequestStakeholder.validate()` — kind in
`user | group`. -/
def requestStakeholderValid (rs : RequestStakeholder) : Bool :=
  rs.stakeholderType == "user" || rs.stakeholderType == "group"

/-- Modelled from the spec: `RequestAction.validate()` — status within
the documented enumeration `active | done | revert`. -/
def requestActionValid (ra : RequestAction) : Bool :=
  ra.status == "active" || ra.status == "done" || ra.status == "revert"

/-- Modelled from the spec: `json.dumps` on the (abstracted) payload —
an injective serialization that is never empty. -/
def jsonDumps (value : String) : String :=
  "json:" ++ value

/-- `request_repo.create`: assign the primary key and persist. -/
def Store.createRequest (s : Store) (r : Request) : Request × Store :=
  let r2 := { r with id := s.nextRequestId }
  (r2, { s with requests := s.requests ++ [r2], nextRequestId := s.nextRequestId + 1 })

/-- `request_repo.update`: plain unconditional update of the row with the
same id (the source performs no state-equality or version check). -/
def Store.updateRequest (s : Store) (r : Request) : Store :=
  { s with requests := s.requests.map (fun q => if q.id == r.id then r else q) }

/-- `request.get_route()`: `self.current_state.route`.  Returns `none`
when the current state is unset or does not resolve (where Python would
raise an `AttributeError` on `None`). -/
def getRoute (env : Env) (r : Request) : Option (List Route) :=
  match r.currentStateId with
  | none => none
  | some sid => (findState env sid).map (fun st => st.route)

/-- `RequestService.add_request_data`: build the `RequestData` (dumping
json payloads), stamp the request id, validate, persist, return the
unchanged request.  On validation failure the store is untouched. -/
def addRequestData (store : Store) (request : Request) (value : String)
    (name : String := "content") (dataType : String := "json") :
    Except Err Request × Store :=
  let rd : RequestData :=
    { requestId := request.id
      dataType := dataType
      status := "active"
      name := name
      value := if dataType == "json" then jsonDumps value else value }
  if requestDataValid rd then
    (.ok request, { store with requestData := store.requestData ++ [rd] })
  else
    (.error (.invalidInput "request_data"), store)

/-- `RequestService.add_request_note`: build, stamp, validate, persist,
return the unchanged request. -/
def addRequestNote (store : Store) (request : Request) (note : String)
    (userId : Nat := 0) (noteType : String := "user_note") :
    Except Err Request × Store :=
  let rn : RequestNote :=
    { requestId := request.id
      userId := userId
      noteType := noteType
      status := "active"
      note := note }
  if requestNoteValid rn then
    (.ok request, { store with requestNotes := store.requestNotes ++ [rn] })
  else
    (.error (.invalidInput "request_note"), store)

/-- `RequestService.add_request_stakeholder`: build, stamp, validate,
persist, return the unchanged request. -/
def addRequestStakeholder (store : Store) (request : Request)
    (stakeholderId : Nat) (stakeholderType : String := "user") :
    Except Err Request × Store :=
  let rs : RequestStakeholder :=
    { requestId := request.id
      stakeholderId := stakeholderId
      stakeholderType := stakeholderType }
  if requestStakeholderValid rs then
    (.ok request, { store with requestStakeholders := store.requestStakeholders ++ [rs] })
  else
    (.error (.invalidInput "request_stakeholder"), store)

/-- Stakeholder loop of `create_request`: add each stakeholder in order,
propagating the first validation failure. -/
def addStakeholderList (store : Store) (request : Request) :
    List Nat → Except Err Request × Store
  | [] => (.ok request, store)
  | sid :: rest =>
    match addRequestStakeholder store request sid with
    | (.ok r2, s2) => addStakeholderList s2 r2 rest
    | (.error e, s2) => (.error e, s2)

/-- `RequestService.create_request`: resolve process, user and start
state, persist the bare request, then attach the initial data (named
after `entity_model`), the initial note and the stakeholders, finally set
`current_state_id` to the start state and persist the update. -/
def createRequest (env : Env) (store : Store) (processId : Nat) (userId : Nat)
    (title : String) (content : String) (note : String) (stakeholders : List Nat)
    (entityModel : String := "") (entityId : Nat := 0) :
    Except Err Request × Store :=
  match processFindOne env processId with
  | .error e => (.error e, store)
  | .ok process =>
  match userFindById env userId with
  | .error e => (.error e, store)
  | .ok user =>
  match processFindStartPoint env process.id with
  | .error e => (.error e, store)
  | .ok state =>
    let request0 : Request :=
      { id := 0
        title := title
        userId := user.id
        processId := process.id
        currentStateId := none
        status := "active"
        entityModel := entityModel
        entityId := entityId
        requestAction := [] }
    let created := store.createRequest request0
    let request := created.1
    let store1 := created.2
    match addRequestData store1 request content entityModel "json" with
    | (.error e, s2) => (.error e, s2)
    | (.ok request, s2) =>
    match addRequestNote s2 request note userId "user_note" with
    | (.error e, s3) => (.error e, s3)
    | (.ok request, s3) =>
    match addStakeholderList s3 request stakeholders with
    | (.error e, s4) => (.error e, s4)
    | (.ok request, s4) =>
      let request2 := { request with currentStateId := some state.id }
      (.ok request2, s4.updateRequest request2)

/-- `RequestService.find_one_request`: repository lookup, raising
`RecordNotFound` when absent (the `user_id` parameter is accepted and
ignored, as in the source). -/
def findOneRequest (store : Store) (requestId : Nat) (userId : Nat := 0) :
    Except Err Request :=
  match store.requests.find? (fun r => r.id == requestId) with
  | some r => .ok r
  | none => .error .recordNotFound

/-- `RequestService.should_user_commit_action`: true iff the user is a
member of some group in the action's target set. -/
def shouldUserCommitAction (env : Env) (userId : Nat) (action : Action) : Bool :=
  action.target.any (fun g => isUserInGroup env g.id userId)

/-- `RequestService.find_request_allowed_action`: flatten the gated
actions of the routes outgoing from the current state, then re-resolve
each by id through `ActionService.find_one`. -/
def findRequestAllowedAction (env : Env) (store : Store) (requestId : Nat)
    (userId : Nat) : Except Err (List Action) :=
  match findOneRequest store requestId userId with
  | .error e => .error e
  | .ok request =>
    match getRoute env request with
    | none => .error .noneTypeError
    | some routes =>
      let actions := routes.foldl (fun acc route => acc ++ route.action) []
      actions.mapM (fun a => actionFindOne env a.id)

/-- `RequestService.find_request_allowed_action_for_specific_user`: the
unfiltered list, kept to those the specific user may commit. -/
def findRequestAllowedActionForSpecificUser (env : Env) (store : Store)
    (requestId : Nat) (userId : Nat) (specificUserId : Nat) :
    Except Err (List Action) :=
  match findRequestAllowedAction env store requestId userId with
  | .error e => .error e
  | .ok actions =>
    match userFindById env specificUserId with
    | .error e => .error e
    | .ok su => .ok (actions.filter (fun a => shouldUserCommitAction env su.id a))

/-- Candidate collection loop of `create_request_action`: walk the routes
and their gated actions, collecting every action whose id matches the
committed one and remembering the (last) route that gated it. -/
def collectCandidates (routes : List Route) (committedId : Nat) :
    List Action × Option Route :=
  routes.foldl
    (fun acc route =>
      route.action.foldl
        (fun acc2 act =>
          if act.id == committedId then (acc2.1 ++ [act], some route) else acc2)
        acc)
    ([], none)

/-- `RequestService.create_request_action`: collect candidate routes and
gated actions, authorize, then build, validate and append the new
`RequestAction` to the request's history.  Returns the mutated request
together with the created entry. -/
def createRequestAction (env : Env) (request : Request) (user : User)
    (committedAction : Action) : Except Err (Request × RequestAction) :=
  match getRoute env request with
  | none => .error .noneTypeError
  | some routes =>
    let collected := collectCandidates routes committedAction.id
    let actions := collected.1
    let allowedActions := actions.filter (fun a => shouldUserCommitAction env user.id a)
    if allowedActions.isEmpty then
      .error (.dontHaveRight user.id)
    else
      match collected.2 with
      | none => .error .noneTypeError
      | some turningRoute =>
        let requestAction : RequestAction :=
          { requestId := request.id
            actionId := committedAction.id
            userId := user.id
            routeId := turningRoute.id
            status := "active"
            routeToNextState := some turningRoute }
        if requestActionValid requestAction then
          .ok ({ request with requestAction := request.requestAction ++ [requestAction] },
               requestAction)
        else
          .error (.invalidInput "request_action")

/-- Status update of the done-marking loop in `user_commit_action`. -/
def markDone (ra : RequestAction) : RequestAction :=
  { ra with status := "done" }

/-- `RequestService.user_commit_action`: resolve request, user and
action, create the request action, mark every history entry `done`
(the Python loop variable shadows the created entry, so after the loop it
denotes the last element of the history list), advance
`current_state_id` to that entry's route's `next_state_id`, and persist
with a plain update. -/
def userCommitAction (env : Env) (store : Store) (requestId : Nat)
    (userId : Nat) (actionId : Nat) : Except Err Request × Store :=
  match findOneRequest store requestId 0 with
  | .error e => (.error e, store)
  | .ok request =>
  match userFindById env userId with
  | .error e => (.error e, store)
  | .ok user =>
  match actionFindOne env actionId with
  | .error e => (.error e, store)
  | .ok action =>
  match createRequestAction env request user action with
  | .error e => (.error e, store)
  | .ok (request2, _created) =>
    let request3 := { request2 with requestAction := request2.requestAction.map markDone }
    match request3.requestAction.getLast? with
    | none => (.error .noneTypeError, store)
    | some raLast =>
      match raLast.routeToNextState with
      | none => (.error .noneTypeError, store)
      | some rt =>
        let request4 := { request3 with currentStateId := some rt.nextStateId }
        (.ok request4, store.updateRequest request4)

/-- `RequestService.find_request_actions`: the request's history list. -/
def findRequestActions (store : Store) (requestId : Nat) (userId : Nat := 0) :
    Except Err (List RequestAction) :=
  match findOneRequest store requestId userId with
  | .error e => .error e
  | .ok request => .ok request.requestAction

/-- Two overlapping `user_commit_action` calls on the same request: both
read the store before either writes (a race on the same origin state),
then their persists apply in order — the second call's successful update
is applied after the first call's. -/
def raceCommitSameOrigin (env : Env) (store : Store) (requestId : Nat)
    (userId1 actionId1 userId2 actionId2 : Nat) :
    Except Err Request × Except Err Request × Store :=
  let call1 := userCommitAction env store requestId userId1 actionId1
  let call2 := userCommitAction env store requestId userId2 actionId2
  match call2.1 with
  | .ok r2 => (call1.1, call2.1, call1.2.updateRequest r2)
  | .error _ => (call1.1, call2.1, call1.2)

/-- Well-formedness of the externally supplied process graph, modelled
from the spec's data model: every route of a state targets a state of the
same process, and a process's designated start state belongs to it. -/
def wellFormed (env : Env) : Bool :=
  env.states.all (fun s =>
    s.route.all (fun rt =>
      match findState env rt.nextStateId with
      | some s2 => s2.processId == s.processId
      | none => false)) &&
  env.processes.all (fun p =>
    match p.startStateId with
    | none => true
    | some sid =>
      match findState env sid with
      | some st => st.processId == p.id
      | none => true)

/-- The §8 invariant: the request's current state resolves and belongs to
the request's process. -/
def stateInv (env : Env) (r : Request) : Prop :=
  ∃ sid st, r.currentStateId = some sid ∧ findState env sid = some st ∧
    st.processId = r.processId

/-- Requests reachable through the engine: created by `create_request`
and advanced any number of times by `user_commit_action` (each advance
acting on the stored copy of the request). -/
inductive ReachableRequest (env : Env) : Request → Prop where
  | created
      (store : Store) (processId userId : Nat) (title content note : String)
      (stakeholders : List Nat) (entityModel : String) (entityId : Nat)
      (r : Request) (s2 : Store)
      (h : createRequest env store processId userId title content note
            stakeholders entityModel entityId = (.ok r, s2)) :
      ReachableRequest env r
  | committed
      (store : Store) (requestId userId actionId : Nat)
      (r r2 : Request) (s2 : Store)
      (hr : ReachableRequest env r)
      (hfind : findOneRequest store requestId 0 = .ok r)
      (h : userCommitAction env store requestId userId actionId = (.ok r2, s2)) :
      ReachableRequest env r2

/-! ### Concrete fixtures (process graph of the spec's §8 scenario, plus a
state with two routes gating the same action) -/

def groupG1 : Group := ⟨1⟩

def groupG2 : Group := ⟨2⟩

/-- "Submit", gated on route R10 out of state A, targets group 1. -/
def actSubmit : Action := ⟨5, [groupG1]⟩

/-- "Approve", gated on route R11 out of state B, targets group 1. -/
def actApprove : Action := ⟨6, [groupG1]⟩

/-- "Reject", gated on route R12 out of state B, targets group 2. -/
def actReject : Action := ⟨7, [groupG2]⟩

def routeR10 : Route := ⟨10, 2, [actSubmit]⟩

def routeR11 : Route := ⟨11, 3, [actApprove]⟩

def routeR12 : Route := ⟨12, 3, [actReject]⟩

def routeR13 : Route := ⟨13, 2, [actSubmit]⟩

def routeR14 : Route := ⟨14, 3, [actSubmit]⟩

def stateA : State := ⟨1, 1, [routeR10]⟩

def stateB : State := ⟨2, 1, [routeR11, routeR12]⟩

def stateC : State := ⟨3, 1, []⟩

/-- A state from which two routes (R13, R14) gate the same action id. -/
def stateD : State := ⟨4, 1, [routeR13, routeR14]⟩

/-- Concrete environment: one process starting at state A, users 7 and 8,
user 7 a member of group 1 and user 8 of no group. -/
def envW : Env :=
  ⟨[⟨1, some 1⟩], [⟨7⟩, ⟨8⟩], [actSubmit, actApprove, actReject],
   [stateA, stateB, stateC, stateD], [(1, 7)]⟩

/-- A freshly created request sitting at state A. -/
def reqW : Request := ⟨1, "t", 7, 1, some 1, "active", "m", 0, []⟩

/-- A request sitting at state D (two routes gate "Submit" there). -/
def reqD : Request := ⟨2, "t", 7, 1, some 4, "active", "m", 0, []⟩

/-- A request sitting at state B. -/
def reqB : Request := ⟨1, "t", 7, 1, some 2, "active", "m", 0, []⟩

def storeW : Store := ⟨[reqW, reqD], [], [], [], 3⟩

def storeB : Store := ⟨[reqB], [], [], [], 2⟩

/-- An empty store whose next request id is 1. -/
def storeC7 : Store := ⟨[], [], [], [], 1⟩

/-- `reqB` after user 7 commits "Approve": at state C with one `done`
history entry through route R11. -/
def reqBDone : Request :=
  ⟨1, "t", 7, 1, some 3, "active", "m", 0, [⟨1, 6, 7, 11, "done", some routeR11⟩]⟩

/-- `reqW` after user 7 commits "Submit": at state B with one `done`
history entry through route R10. -/
def reqWDone : Request :=
  ⟨1, "t", 7, 1, some 2, "active", "m", 0, [⟨1, 5, 7, 10, "done", some routeR10⟩]⟩

/-- The bare request persisted by `create_request` before its current
state is assigned. -/
def req0W : Request := ⟨1, "t", 7, 1, none, "active", "m", 0, []⟩

/-- The store after the commit of `reqBDone`. -/
def storeBDone : Store := ⟨[reqBDone], [], [], [], 2⟩

/-- The store after the commit of `reqWDone`. -/
def storeWDone : Store := ⟨[reqWDone, reqD], [], [], [], 3⟩

/-- The `RequestAction` created by committing "Submit" on `reqD`: gated by
both R13 and R14, the later route R14 is recorded. -/
def raD : RequestAction := ⟨2, 5, 7, 14, "active", some routeR14⟩

/-- `reqD` with the new history entry appended. -/
def reqD2 : Request := ⟨2, "t", 7, 1, some 4, "active", "m", 0, [raD]⟩

/-- The store produced by a successful `create_request` on `storeC7`. -/
def storeC7ok : Store :=
  ⟨[reqW], [⟨1, "json", "active", "m", "json:v"⟩],
   [⟨1, 7, "user_note", "active", "note"⟩], [], 2⟩

/-- The store left behind when `create_request` fails on an empty note:
the bare request and its data snapshot are already persisted. -/
def storeC4bad : Store :=
  ⟨[req0W], [⟨1, "json", "active", "m", "json:v"⟩], [], [], 2⟩

/-! ### Helper lemmas -/

/-- Left-biased choice on options (used to state fold accumulators). -/
def optOr {α : Type} (a b : Option α) : Option α :=
  match a with
  | some x => some x
  | none => b

theorem optOr_none_right {α : Type} (a : Option α) : optOr a none = a := by
  cases a <;> rfl

theorem optOr_some_left {α : Type} (a : Option α) (c : α) (b : Option α) :
    optOr (optOr a (some c)) b = optOr a (some c) := by
  cases a <;> rfl

theorem getLast?_cons_eq {α : Type} (a : α) (l : List α) :
    (a :: l).getLast? = optOr l.getLast? (some a) := by
  cases l with
  | nil => rfl
  | cons b t =>
    rw [List.getLast?_cons_cons,
        List.getLast?_eq_getLast_of_ne_nil (List.cons_ne_nil b t)]
    rfl

theorem mem_of_getLast?_eq_some {α : Type} {l : List α} {a : α}
    (h : l.getLast? = some a) : a ∈ l := by
  have hmem : a ∈ l.getLast? := h
  obtain ⟨hne, heq⟩ := List.mem_getLast?_eq_getLast hmem
  subst heq
  exact List.getLast_mem hne

theorem collect_inner (cid : Nat) (route : Route) (acts : List Action) :
    ∀ acc : List Action × Option Route,
    acts.foldl
      (fun acc2 act => if act.id == cid then (acc2.1 ++ [act], some route) else acc2)
      acc
      = (acc.1 ++ acts.filter (fun a => a.id == cid),
         if acts.any (fun a => a.id == cid) then some route else acc.2) := by
  induction acts with
  | nil => intro acc; simp
  | cons act rest ih =>
    intro acc
    rw [List.foldl_cons, ih]
    cases h : (act.id == cid) with
    | true => simp [h, List.filter_cons, List.any_cons]
    | false => simp [h, List.filter_cons, List.any_cons]

theorem collect_foldl (cid : Nat) (routes : List Route) :
    ∀ acc : List Action × Option Route,
    routes.foldl
      (fun acc route =>
        route.action.foldl
          (fun acc2 act => if act.id == cid then (acc2.1 ++ [act], some route) else acc2)
          acc)
      acc
      = (acc.1 ++ (routes.flatMap (fun rt => rt.action)).filter (fun a => a.id == cid),
         optOr ((routes.filter (fun rt => rt.action.any (fun a => a.id == cid))).getLast?)
           acc.2) := by
  induction routes with
  | nil => intro acc; simp [optOr]
  | cons rt rest ih =>
    intro acc
    rw [List.foldl_cons, collect_inner, ih]
    cases h : rt.action.any (fun a => a.id == cid) with
    | true =>
      simp only [h, if_pos, List.filter_cons, List.flatMap_cons, List.filter_append,
        List.append_assoc, getLast?_cons_eq, optOr_some_left]
    | false =>
      simp [h, List.filter_cons, List.flatMap_cons, List.filter_append, List.append_assoc]

theorem collectCandidates_eq (routes : List Route) (cid : Nat) :
    collectCandidates routes cid
      = ((routes.flatMap (fun rt => rt.action)).filter (fun a => a.id == cid),
         (routes.filter (fun rt => rt.action.any (fun a => a.id == cid))).getLast?) := by
  unfold collectCandidates
  rw [collect_foldl]
  simp [optOr_none_right]

theorem findOneRequest_ok {store : Store} {rid u : Nat} {r : Request}
    (h : findOneRequest store rid u = .ok r) :
    store.requests.find? (fun q => q.id == rid) = some r ∧ r.id = rid := by
  unfold findOneRequest at h
  cases hf : store.requests.find? (fun q => q.id == rid) with
  | none => rw [hf] at h; exact absurd h (by simp)
  | some q =>
    rw [hf] at h
    cases h
    exact ⟨rfl, by simpa using List.find?_some hf⟩

theorem userFindById_ok {env : Env} {uid : Nat} {u : User}
    (h : userFindById env uid = .ok u) : u.id = uid ∧ u ∈ env.users := by
  unfold userFindById at h
  cases hf : env.users.find? (fun q => q.id == uid) with
  | none => rw [hf] at h; exact absurd h (by simp)
  | some q =>
    rw [hf] at h
    cases h
    exact ⟨by simpa using List.find?_some hf, List.mem_of_find?_eq_some hf⟩

theorem actionFindOne_ok {env : Env} {aid : Nat} {a : Action}
    (h : actionFindOne env aid = .ok a) : a.id = aid ∧ a ∈ env.actions := by
  unfold actionFindOne at h
  cases hf : env.actions.find? (fun q => q.id == aid) with
  | none => rw [hf] at h; exact absurd h (by simp)
  | some q =>
    rw [hf] at h
    cases h
    exact ⟨by simpa using List.find?_some hf, List.mem_of_find?_eq_some hf⟩

theorem processFindOne_ok {env : Env} {pid : Nat} {p : Process}
    (h : processFindOne env pid = .ok p) :
    env.processes.find? (fun q => q.id == pid) = some p ∧ p.id = pid ∧
      p ∈ env.processes := by
  unfold processFindOne at h
  cases hf : env.processes.find? (fun q => q.id == pid) with
  | none => rw [hf] at h; exact absurd h (by simp)
  | some q =>
    rw [hf] at h
    cases h
    exact ⟨rfl, by simpa using List.find?_some hf, List.mem_of_find?_eq_some hf⟩

theorem findState_some {env : Env} {sid : Nat} {st : State}
    (h : findState env sid = some st) : st.id = sid ∧ st ∈ env.states := by
  unfold findState at h
  exact ⟨by simpa using List.find?_some h, List.mem_of_find?_eq_some h⟩

theorem getRoute_some {env : Env} {r : Request} {routes : List Route}
    (h : getRoute env r = some routes) :
    ∃ sid st, r.currentStateId = some sid ∧ findState env sid = some st ∧
      routes = st.route := by
  unfold getRoute at h
  split at h
  next hc => exact absurd h (by simp)
  next sid hc =>
    cases hs : findState env sid with
    | none => rw [hs] at h; exact absurd h (by simp)
    | some st =>
      rw [hs] at h
      simp only [Option.map_some'] at h
      cases h
      exact ⟨sid, st, hc, hs, rfl⟩

theorem processFindStartPoint_ok {env : Env} {pid : Nat} {st : State}
    (h : processFindStartPoint env pid = .ok st) :
    ∃ p sid, env.processes.find? (fun q => q.id == pid) = some p ∧
      p.startStateId = some sid ∧ findState env sid = some st := by
  unfold processFindStartPoint at h
  split at h
  next hf => exact absurd h (by simp)
  next p hf =>
    split at h
    next hsid => exact absurd h (by simp)
    next sid hsid =>
      split at h
      next st2 hst =>
        cases h
        exact ⟨p, sid, hf, hsid, hst⟩
      next hst => exact absurd h (by simp)

theorem wellFormed_route {env : Env} (hwf : wellFormed env = true) {s : State}
    {rt : Route} (hs : s ∈ env.states) (hrt : rt ∈ s.route) :
    ∃ s2, findState env rt.nextStateId = some s2 ∧ s2.processId = s.processId := by
  unfold wellFormed at hwf
  rw [Bool.and_eq_true] at hwf
  have h1 := List.all_eq_true.mp hwf.1 s hs
  have h2 := List.all_eq_true.mp h1 rt hrt
  cases hfs : findState env rt.nextStateId with
  | none => rw [hfs] at h2; exact absurd h2 (by simp)
  | some s2 =>
    rw [hfs] at h2
    exact ⟨s2, rfl, by simpa using h2⟩

theorem wellFormed_start {env : Env} (hwf : wellFormed env = true) {p : Process}
    {sid : Nat} {st : State} (hp : p ∈ env.processes)
    (hsid : p.startStateId = some sid) (hst : findState env sid = some st) :
    st.processId = p.id := by
  unfold wellFormed at hwf
  rw [Bool.and_eq_true] at hwf
  have h1 := List.all_eq_true.mp hwf.2 p hp
  split at h1
  next hsid2 => rw [hsid] at hsid2; exact absurd hsid2 (by simp)
  next sid2 hsid2 =>
    rw [hsid] at hsid2
    cases hsid2
    rw [hst] at h1
    simpa using h1

theorem createRequestAction_ok {env : Env} {request : Request} {user : User}
    {a : Action} {r2 : Request} {ra : RequestAction}
    (h : createRequestAction env request user a = .ok (r2, ra)) :
    ∃ routes tr,
      getRoute env request = some routes ∧
      (collectCandidates routes a.id).2 = some tr ∧
      ((collectCandidates routes a.id).1.filter
        (fun x => shouldUserCommitAction env user.id x)).isEmpty = false ∧
      ra = { requestId := request.id, actionId := a.id, userId := user.id,
             routeId := tr.id, status := "active", routeToNextState := some tr } ∧
      r2 = { request with requestAction := request.requestAction ++ [ra] } := by
  unfold createRequestAction at h
  split at h
  next hg => exact absurd h (by simp)
  next routes hg =>
    by_cases hemp :
        ((collectCandidates routes a.id).1.filter
          (fun x => shouldUserCommitAction env user.id x)).isEmpty = true
    · rw [if_pos hemp] at h
      exact absurd h (by simp)
    · rw [if_neg hemp] at h
      split at h
      next htr => exact absurd h (by simp)
      next tr htr =>
        rw [if_pos (by rfl)] at h
        cases h
        exact ⟨routes, tr, hg, htr, by simpa using hemp, rfl, rfl⟩

theorem createRequestAction_forbidden {env : Env} {request : Request}
    {user : User} {a : Action} {routes : List Route}
    (hg : getRoute env request = some routes)
    (hempty : (collectCandidates routes a.id).1.filter
        (fun x => shouldUserCommitAction env user.id x) = []) :
    createRequestAction env request user a = .error (.dontHaveRight user.id) := by
  unfold createRequestAction
  rw [hg]
  simp only [hempty, List.isEmpty_nil, if_pos]

theorem userCommitAction_ok {env : Env} {store : Store} {rid uid aid : Nat}
    {r2 : Request} {s2 : Store}
    (h : userCommitAction env store rid uid aid = (.ok r2, s2)) :
    ∃ r0 u a routes tr,
      findOneRequest store rid 0 = .ok r0 ∧
      userFindById env uid = .ok u ∧
      actionFindOne env aid = .ok a ∧
      getRoute env r0 = some routes ∧
      (collectCandidates routes a.id).2 = some tr ∧
      r2 = { r0 with
             requestAction := r0.requestAction.map markDone ++
               [{ requestId := r0.id, actionId := a.id, userId := u.id,
                  routeId := tr.id, status := "done", routeToNextState := some tr }],
             currentStateId := some tr.nextStateId } ∧
      s2 = store.updateRequest r2 := by
  unfold userCommitAction at h
  split at h
  next e hfind => exact absurd h (by simp)
  next r0 hfind =>
  split at h
  next e huser => exact absurd h (by simp)
  next u huser =>
  split at h
  next e hact => exact absurd h (by simp)
  next a hact =>
  split at h
  next e hcra => exact absurd h (by simp)
  next rc ra hcra =>
    obtain ⟨routes, tr, hg, htr, hne, hra, hrc⟩ := createRequestAction_ok hcra
    subst hra hrc
    rw [List.map_append] at h
    simp only [List.map_cons, List.map_nil] at h
    rw [List.getLast?_concat] at h
    simp only [markDone] at h
    cases h
    exact ⟨r0, u, a, routes, tr, hfind, huser, hact, hg, htr, rfl, rfl⟩

theorem pairIf_ok {c : Bool} {store s' st2 : Store} {req r' : Request} {e : Err}
    (h : (if c = true then (Except.ok req, st2)
          else (Except.error e, store)) = (Except.ok r', s')) : r' = req := by
  by_cases hc : c = true
  · rw [if_pos hc] at h; cases h; rfl
  · rw [if_neg hc] at h; exact absurd h (by simp)

theorem addRequestData_ok {store : Store} {req : Request} {v n dt : String}
    {r' : Request} {s' : Store}
    (h : addRequestData store req v n dt = (.ok r', s')) : r' = req := by
  unfold addRequestData at h
  exact pairIf_ok h

theorem addRequestNote_ok {store : Store} {req : Request} {note : String}
    {uid : Nat} {nt : String} {r' : Request} {s' : Store}
    (h : addRequestNote store req note uid nt = (.ok r', s')) : r' = req := by
  unfold addRequestNote at h
  exact pairIf_ok h

theorem addRequestStakeholder_ok {store : Store} {req : Request} {sid : Nat}
    {st : String} {r' : Request} {s' : Store}
    (h : addRequestStakeholder store req sid st = (.ok r', s')) : r' = req := by
  unfold addRequestStakeholder at h
  exact pairIf_ok h

theorem addStakeholderList_ok :
    ∀ (l : List Nat) (store : Store) (req : Request) {r' : Request} {s' : Store},
    addStakeholderList store req l = (.ok r', s') → r' = req := by
  intro l
  induction l with
  | nil =>
    intro store req r' s' h
    unfold addStakeholderList at h
    cases h
    rfl
  | cons sid rest ih =>
    intro store req r' s' h
    unfold addStakeholderList at h
    split at h
    next r2 s2 heq =>
      exact (ih s2 r2 h).trans (addRequestStakeholder_ok heq)
    next e s2 heq => exact absurd h (by simp)

theorem createRequest_ok {env : Env} {store : Store} {pid uid : Nat}
    {title content note : String} {shs : List Nat} {em : String} {eid : Nat}
    {r : Request} {s' : Store}
    (h : createRequest env store pid uid title content note shs em eid
          = (.ok r, s')) :
    ∃ p u st, processFindOne env pid = .ok p ∧ userFindById env uid = .ok u ∧
      processFindStartPoint env p.id = .ok st ∧
      r.processId = p.id ∧ r.currentStateId = some st.id := by
  unfold createRequest at h
  split at h
  next e h1 => exact absurd h (by simp)
  next p h1 =>
  split at h
  next e h2 => exact absurd h (by simp)
  next u h2 =>
  split at h
  next e h3 => exact absurd h (by simp)
  next st h3 =>
  simp only [] at h
  split at h
  next e s2 h4 => exact absurd h (by simp)
  next rq s2 h4 =>
  split at h
  next e s3 h5 => exact absurd h (by simp)
  next rq2 s3 h5 =>
  split at h
  next e s4 h6 => exact absurd h (by simp)
  next rq3 s4 h6 =>
    cases h
    have e1 := addRequestData_ok h4
    have e2 := addRequestNote_ok h5
    have e3 := addStakeholderList_ok _ _ _ h6
    subst e3 e2 e1
    exact ⟨p, u, st, h1, h2, h3, rfl, rfl⟩

theorem createRequest_processNotFound {env : Env} {store : Store}
    {pid uid : Nat} {title content note : String} {shs : List Nat}
    {em : String} {eid : Nat} {e : Err}
    (h : processFindOne env pid = .error e) :
    createRequest env store pid uid title content note shs em eid
      = (.error e, store) := by
  unfold createRequest
  rw [h]

theorem foldl_append_flatMap (routes : List Route) :
    ∀ acc : List Action,
    routes.foldl (fun acc route => acc ++ route.action) acc
      = acc ++ routes.flatMap (fun rt => rt.action) := by
  induction routes with
  | nil => intro acc; simp
  | cons rt rest ih =>
    intro acc
    rw [List.foldl_cons, ih]
    simp [List.flatMap_cons, List.append_assoc]

/-! ### Claim theorems -/

/-- Claim C5: `should_user_commit_action` allows a user to commit an action iff
the user is a member of at least one group in the action's target set, as
reported by the group-membership collaborator; in particular an action
with an empty target set is allowed for no user. -/
theorem c5_authorization_iff (env : Env) (userId : Nat) (a : Action) (i : Nat) :
    (shouldUserCommitAction env userId a = true ↔
      ∃ g ∈ a.target, isUserInGroup env g.id userId = true) ∧
    shouldUserCommitAction env userId { id := i, target := [] } = false := by
  constructor
  · simp [shouldUserCommitAction]
  · rfl

/-- Claim C6: when `create_request_action` succeeds and several routes outgoing
from the current state gate an action with the committed id, the route
recorded on the new `RequestAction` (appended last to the history) is the
last such route in the enumeration order of the state's routes. -/
theorem c6_last_gating_route_wins {env : Env} {request : Request}
    {user : User} {a : Action} {r2 : Request} {ra : RequestAction}
    {routes : List Route}
    (hg : getRoute env request = some routes)
    (h : createRequestAction env request user a = .ok (r2, ra)) :
    ∃ tr,
      (routes.filter (fun rt => rt.action.any (fun x => x.id == a.id))).getLast?
        = some tr ∧
      ra.routeToNextState = some tr ∧ ra.routeId = tr.id ∧
      r2.requestAction.getLast? = some ra := by
  obtain ⟨routes2, tr, hg2, htr, hne, hra, hr2⟩ := createRequestAction_ok h
  rw [hg] at hg2
  injection hg2 with he
  subst he
  rw [collectCandidates_eq] at htr
  refine ⟨tr, htr, ?_, ?_, ?_⟩
  · rw [hra]
  · rw [hra]
  · rw [hr2]
    exact List.getLast?_concat _

/-- Claim C8: `find_request_allowed_action` returns the flattening of the gated
actions of all routes outgoing from the current state, each re-resolved
by id through the action lookup (duplicates across routes retained), and
the result does not depend on the viewing user. -/
theorem c8_allowed_actions_unfiltered {env : Env} {store : Store}
    {rid : Nat} {r : Request} {routes : List Route} (uid uid' : Nat)
    (hfind : findOneRequest store rid uid = .ok r)
    (hg : getRoute env r = some routes) :
    findRequestAllowedAction env store rid uid
      = (routes.flatMap (fun rt => rt.action)).mapM (fun a => actionFindOne env a.id) ∧
    findRequestAllowedAction env store rid uid
      = findRequestAllowedAction env store rid uid' := by
  constructor
  · unfold findRequestAllowedAction
    simp only [hfind, hg]
    rw [foldl_append_flatMap]
    simp
  · rfl

/-- Claim C9: the attachment operations return the request unchanged on
success, fail with `InvalidInput` leaving the store untouched on
validation failure, and in every case never modify the stored requests
(in particular never the current state). -/
theorem c9_attachment_ops_frame (store : Store) (request : Request)
    (v n dt note nt sttype : String) (uid sid : Nat) :
    ((addRequestData store request v n dt).1 = .ok request ∨
      addRequestData store request v n dt
        = (.error (.invalidInput "request_data"), store)) ∧
    (addRequestData store request v n dt).2.requests = store.requests ∧
    ((addRequestNote store request note uid nt).1 = .ok request ∨
      addRequestNote store request note uid nt
        = (.error (.invalidInput "request_note"), store)) ∧
    (addRequestNote store request note uid nt).2.requests = store.requests ∧
    ((addRequestStakeholder store request sid sttype).1 = .ok request ∨
      addRequestStakeholder store request sid sttype
        = (.error (.invalidInput "request_stakeholder"), store)) ∧
    (addRequestStakeholder store request sid sttype).2.requests = store.requests := by
  refine ⟨?_, ?_, ?_, ?_, ?_, ?_⟩ <;>
    simp only [addRequestData, addRequestNote, addRequestStakeholder] <;>
    (repeat' split) <;> simp

/-- Claim C1: a successful `user_commit_action` appends exactly one new
`RequestAction` (recording the committed action, acting user and turning
route) to the request's history, marks every history entry — prior ones
and the new one — with status `done`, advances `current_state_id` to the
turning route's `next_state_id`, and persists the updated request. -/
theorem c1_successful_commit {env : Env} {store : Store} {rid uid aid : Nat}
    {r0 r2 : Request} {s2 : Store}
    (hfind : findOneRequest store rid 0 = .ok r0)
    (h : userCommitAction env store rid uid aid = (.ok r2, s2)) :
    ∃ a routes tr,
      actionFindOne env aid = .ok a ∧
      getRoute env r0 = some routes ∧
      (collectCandidates routes a.id).2 = some tr ∧
      r2.requestAction = r0.requestAction.map markDone ++
        [{ requestId := r0.id, actionId := aid, userId := uid, routeId := tr.id,
           status := "done", routeToNextState := some tr }] ∧
      r2.currentStateId = some tr.nextStateId ∧
      (∀ ra ∈ r2.requestAction, ra.status = "done") ∧
      s2 = store.updateRequest r2 := by
  obtain ⟨r0', u, a, routes, tr, hfind', huser, hact, hg, htr, hr2, hs2⟩ :=
    userCommitAction_ok h
  rw [hfind] at hfind'
  injection hfind' with he
  subst he
  obtain ⟨huid, _⟩ := userFindById_ok huser
  obtain ⟨haid, _⟩ := actionFindOne_ok hact
  subst huid haid
  refine ⟨a, routes, tr, hact, hg, htr, ?_, ?_, ?_, ?_⟩
  · rw [hr2]
  · rw [hr2]
  · intro ra hra
    rw [hr2] at hra
    simp only [List.mem_append, List.mem_map, List.mem_singleton] at hra
    rcases hra with ⟨x, _, hx⟩ | hx
    · rw [← hx]; rfl
    · rw [hx]
  · exact hs2

/-- Claim C2: when the committed action is gated by some route outgoing from
the request's current state but the acting user is a member of no group
in any gating action's target set, `user_commit_action` fails with
`DontHaveRight` and the store — hence the request's current state and its
history — is exactly as before. -/
theorem c2_forbidden_no_mutation {env : Env} {store : Store}
    {rid uid aid : Nat} {r0 : Request} {u : User} {a : Action}
    {routes : List Route}
    (hfind : findOneRequest store rid 0 = .ok r0)
    (huser : userFindById env uid = .ok u)
    (hact : actionFindOne env aid = .ok a)
    (hg : getRoute env r0 = some routes)
    (hgated : ∃ rt ∈ routes, ∃ act ∈ rt.action, act.id = a.id)
    (hnoright : ∀ rt ∈ routes, ∀ act ∈ rt.action, act.id = a.id →
      shouldUserCommitAction env uid act = false) :
    userCommitAction env store rid uid aid
      = (.error (.dontHaveRight uid), store) := by
  obtain ⟨huid, _⟩ := userFindById_ok huser
  subst huid
  have hempty : (collectCandidates routes a.id).1.filter
      (fun x => shouldUserCommitAction env u.id x) = [] := by
    rw [collectCandidates_eq]
    apply List.filter_eq_nil_iff.mpr
    intro x hx
    rw [List.mem_filter, List.mem_flatMap] at hx
    obtain ⟨⟨rt, hrt, hxin⟩, hid⟩ := hx
    have hxid : x.id = a.id := by simpa using hid
    simp [hnoright rt hrt x hxin hxid]
  have hforb := @createRequestAction_forbidden env r0 u a routes hg hempty
  unfold userCommitAction
  simp only [hfind, huser, hact, hforb]

/-- Claim C10: after a successful `user_commit_action`, the advance reads the
route from the last element of the history list (the loop variable
shadowing in the source); since the new entry is appended last, the new
`current_state_id` equals the next state of that last entry's route, and
that entry is the one just created for this commit. -/
theorem c10_advance_targets_last_entry {env : Env} {store : Store}
    {rid uid aid : Nat} {r0 r2 : Request} {s2 : Store}
    (hfind : findOneRequest store rid 0 = .ok r0)
    (h : userCommitAction env store rid uid aid = (.ok r2, s2)) :
    ∃ raLast,
      r2.requestAction.getLast? = some raLast ∧
      raLast.userId = uid ∧ raLast.actionId = aid ∧ raLast.status = "done" ∧
      r2.requestAction.length = r0.requestAction.length + 1 ∧
      ∃ rt, raLast.routeToNextState = some rt ∧
        r2.currentStateId = some rt.nextStateId := by
  obtain ⟨r0', u, a, routes, tr, hfind', huser, hact, hg, htr, hr2, hs2⟩ :=
    userCommitAction_ok h
  rw [hfind] at hfind'
  injection hfind' with he
  subst he
  obtain ⟨huid, _⟩ := userFindById_ok huser
  obtain ⟨haid, _⟩ := actionFindOne_ok hact
  subst huid haid
  refine ⟨{ requestId := r0.id, actionId := a.id, userId := u.id,
            routeId := tr.id, status := "done", routeToNextState := some tr },
          ?_, rfl, rfl, rfl, ?_, tr, rfl, ?_⟩
  · rw [hr2]
    exact List.getLast?_concat _
  · rw [hr2]
    simp
  · rw [hr2]

/-- Claim C7: for a well-formed process graph, every reachable request — one
created by `create_request` and advanced any number of times by
`user_commit_action` — has a current state that resolves and belongs to
the request's own process. -/
theorem c7_state_process_invariant {env : Env} (hwf : wellFormed env = true)
    {r : Request} (hr : ReachableRequest env r) : stateInv env r := by
  induction hr with
  | created store pid uid title content note shs em eid r s2 h =>
    obtain ⟨p, u, st, hp, hu, hst, hproc, hcur⟩ := createRequest_ok h
    obtain ⟨p2, sid, hfindp, hsid, hfs⟩ := processFindStartPoint_ok hst
    obtain ⟨hfind2, hpid, hpmem⟩ := processFindOne_ok hp
    rw [hpid, hfind2] at hfindp
    injection hfindp with hpp
    subst hpp
    have hstproc : st.processId = p.id := wellFormed_start hwf hpmem hsid hfs
    obtain ⟨hstid, _⟩ := findState_some hfs
    refine ⟨st.id, st, hcur, ?_, ?_⟩
    · rw [hstid]; exact hfs
    · rw [hstproc, hproc]
  | committed store rid uid aid r r2 s2 hrr hfind h ih =>
    obtain ⟨r0, u, a, routes, tr, hfind2, huser, hact, hg, htr, hr2, hs2⟩ :=
      userCommitAction_ok h
    rw [hfind] at hfind2
    injection hfind2 with he
    subst he
    obtain ⟨sid, st0, hcur, hfs0, hroutes⟩ := getRoute_some hg
    obtain ⟨sid2, st2, hcur2, hfs2, hproc2⟩ := ih
    rw [hcur] at hcur2
    injection hcur2 with hsid2
    subst hsid2
    rw [hfs0] at hfs2
    injection hfs2 with hst2
    subst hst2
    have htrmem : tr ∈ routes := by
      rw [collectCandidates_eq] at htr
      exact List.mem_of_mem_filter (mem_of_getLast?_eq_some htr)
    rw [hroutes] at htrmem
    obtain ⟨sNext, hfsNext, hprocNext⟩ :=
      wellFormed_route hwf (findState_some hfs0).2 htrmem
    refine ⟨tr.nextStateId, sNext, ?_, hfsNext, ?_⟩
    · rw [hr2]
    · rw [hr2]
      simp only []
      rw [hprocNext, hproc2]

theorem findOneRequest_update {store : Store} {r0 r : Request} {rid : Nat}
    (hfind : findOneRequest store rid 0 = .ok r0) (hid : r.id = rid) :
    findOneRequest (store.updateRequest r) rid 0 = .ok r := by
  obtain ⟨hf, hr0⟩ := findOneRequest_ok hfind
  unfold findOneRequest Store.updateRequest
  simp only []
  have : ∀ l : List Request, l.find? (fun q => q.id == rid) = some r0 →
      (l.map (fun q => if q.id == r.id then r else q)).find?
        (fun q => q.id == rid) = some r := by
    intro l
    induction l with
    | nil => intro hl; simp at hl
    | cons q rest ih =>
      intro hl
      rw [List.find?_cons] at hl
      simp only [List.map_cons]
      cases hq : (q.id == rid) with
      | true =>
        have hqid : q.id = rid := by simpa using hq
        have hqr : (q.id == r.id) = true := by simp [hqid, hid]
        have hrr : (r.id == rid) = true := by simp [hid]
        rw [if_pos hqr, List.find?_cons, hrr]
      | false =>
        rw [hq] at hl
        have hqr : (q.id == r.id) = false := by
          rw [hid]; exact hq
        rw [if_neg (by simp [hqr]), List.find?_cons, hq]
        exact ih hl
  rw [this store.requests hf]

/-- Counterexample to C3: two overlapping commits of "Approve" on the
same request from the same origin state both succeed — the final persist
is an unconditional update, no `Conflict` arises, and the second persist
silently rewrites the row. -/
theorem c3_counterexample :
    raceCommitSameOrigin envW storeB 1 7 6 7 6
      = (.ok reqBDone, .ok reqBDone, storeBDone) := by
  rfl

/-- Claim C3 (amended): the final persist of `user_commit_action` is an
unconditional repository update; when two commit calls race on the same
request from the same origin state and both succeed, the final store is
the first update overwritten by the second — the second call's result is
what `find_one` afterwards returns, a silent last-writer-wins overwrite
with no `Conflict` error. -/
theorem c3_amended_unconditional_update {env : Env} {store : Store}
    {rid u1 a1 u2 a2 : Nat} {res1 res2 : Except Err Request} {sF : Store}
    {r1 r2 : Request}
    (h : raceCommitSameOrigin env store rid u1 a1 u2 a2 = (res1, res2, sF))
    (h1 : res1 = .ok r1) (h2 : res2 = .ok r2) :
    sF = (store.updateRequest r1).updateRequest r2 ∧
    findOneRequest sF rid 0 = .ok r2 := by
  subst h1 h2
  unfold raceCommitSameOrigin at h
  cases hc1 : userCommitAction env store rid u1 a1 with
  | mk c1res c1st =>
  cases hc2 : userCommitAction env store rid u2 a2 with
  | mk c2res c2st =>
  rw [hc1, hc2] at h
  cases c2res with
  | error e => exact absurd h (by simp)
  | ok rr =>
    simp only [Prod.mk.injEq] at h
    obtain ⟨hr1, hrr, hsF⟩ := h
    subst hr1
    injection hrr with hrr2
    subst hrr2
    obtain ⟨q1, u1', a1', routes1, tr1, hf1, _, _, _, _, hq1, hst1⟩ :=
      userCommitAction_ok hc1
    obtain ⟨q2, u2', a2', routes2, tr2, hf2, _, _, _, _, hq2, hst2⟩ :=
      userCommitAction_ok hc2
    have hid1 : r1.id = rid := by
      rw [hq1]; exact (findOneRequest_ok hf1).2
    have hid2 : rr.id = rid := by
      rw [hq2]; exact (findOneRequest_ok hf2).2
    subst hst1
    subst hsF
    exact ⟨rfl, findOneRequest_update (findOneRequest_update hf1 hid1) hid2⟩

/-- Counterexample to C4: `create_request` with an empty initial note
fails with `InvalidInput` after the bare request (current state still
unset) and its data snapshot were already persisted — the
partially-initialized request is externally visible. -/
theorem c4_counterexample :
    createRequest envW storeC7 1 7 "t" "v" "" [] "m" 0
      = (.error (.invalidInput "request_note"), storeC4bad) ∧
    storeC4bad.requests = [req0W] ∧ req0W.currentStateId = none := by
  exact ⟨rfl, rfl, rfl⟩

/-- Claim C4 (amended): failures of the three resolution steps of
`create_request` (process, user, or start state not found) happen before
the initial persist and leave the store unchanged; attachment validation
failures, by contrast, occur after the bare request was persisted (see
the counterexample). -/
theorem c4_amended_resolution_failures {env : Env} {store : Store}
    {pid uid : Nat} {title content note : String} {shs : List Nat}
    {em : String} {eid : Nat} {e : Err}
    (h : processFindOne env pid = .error e ∨
        (∃ p, processFindOne env pid = .ok p ∧ userFindById env uid = .error e) ∨
        (∃ p u, processFindOne env pid = .ok p ∧ userFindById env uid = .ok u ∧
          processFindStartPoint env p.id = .error e)) :
    createRequest env store pid uid title content note shs em eid
      = (.error e, store) := by
  unfold createRequest
  rcases h with h1 | ⟨p, h1, h2⟩ | ⟨p, u, h1, h2, h3⟩
  · simp only [h1]
  · simp only [h1, h2]
  · simp only [h1, h2, h3]

/-! ### Witnesses instantiating the hypothesis-bearing theorems on the
concrete fixtures -/

/-- Witness for C1: user 7 commits "Approve" on the request at state B. -/
theorem c1_witness :
    ∃ a routes tr,
      actionFindOne envW 6 = .ok a ∧
      getRoute envW reqB = some routes ∧
      (collectCandidates routes a.id).2 = some tr ∧
      reqBDone.requestAction = reqB.requestAction.map markDone ++
        [{ requestId := reqB.id, actionId := 6, userId := 7, routeId := tr.id,
           status := "done", routeToNextState := some tr }] ∧
      reqBDone.currentStateId = some tr.nextStateId ∧
      (∀ ra ∈ reqBDone.requestAction, ra.status = "done") ∧
      storeBDone = storeB.updateRequest reqBDone :=
  @c1_successful_commit envW storeB 1 7 6 reqB reqBDone storeBDone (by rfl) (by rfl)

/-- Witness for C2: user 8, member of no group, attempts "Reject" at
state B — the call fails and the store is untouched. -/
theorem c2_witness :
    userCommitAction envW storeB 1 8 7 = (.error (.dontHaveRight 8), storeB) :=
  @c2_forbidden_no_mutation envW storeB 1 8 7 reqB ⟨8⟩ actReject stateB.route
    (by rfl) (by rfl) (by rfl) (by rfl) (by decide) (by decide)

/-- Witness for the amended C3 on the concrete race of two "Approve"
commits. -/
theorem c3_amended_witness :
    storeBDone = (storeB.updateRequest reqBDone).updateRequest reqBDone ∧
    findOneRequest storeBDone 1 0 = .ok reqBDone :=
  @c3_amended_unconditional_update envW storeB 1 7 6 7 6
    (.ok reqBDone) (.ok reqBDone) storeBDone reqBDone reqBDone
    (by rfl) rfl rfl

/-- Witness for the amended C4: an unknown process id fails before
anything is persisted. -/
theorem c4_amended_witness :
    createRequest envW storeC7 99 7 "t" "v" "note" [] "m" 0
      = (.error .recordNotFound, storeC7) :=
  @c4_amended_resolution_failures envW storeC7 99 7 "t" "v" "note" [] "m" 0
    .recordNotFound (Or.inl (by rfl))

/-- Witness for C6: from state D both R13 and R14 gate "Submit"; the
created entry records R14, the later route. -/
theorem c6_witness :
    ∃ tr,
      (stateD.route.filter
        (fun rt => rt.action.any (fun x => x.id == actSubmit.id))).getLast?
        = some tr ∧
      raD.routeToNextState = some tr ∧ raD.routeId = tr.id ∧
      reqD2.requestAction.getLast? = some raD :=
  @c6_last_gating_route_wins envW reqD ⟨7⟩ actSubmit reqD2 raD stateD.route
    (by rfl) (by rfl)

/-- Witness for C7: the request created by `create_request` on the
concrete graph satisfies the state-process invariant. -/
theorem c7_witness : stateInv envW reqW :=
  c7_state_process_invariant (by decide)
    (ReachableRequest.created storeC7 1 7 "t" "v" "note" [] "m" 0 reqW storeC7ok
      (by rfl))

/-- Witness for C8 on the request at state B, for viewers 0 and 9. -/
theorem c8_witness :
    findRequestAllowedAction envW storeB 1 0
      = (stateB.route.flatMap (fun rt => rt.action)).mapM
          (fun a => actionFindOne envW a.id) ∧
    findRequestAllowedAction envW storeB 1 0
      = findRequestAllowedAction envW storeB 1 9 :=
  @c8_allowed_actions_unfiltered envW storeB 1 reqB stateB.route 0 9
    (by rfl) (by rfl)

/-- Witness for C10: after user 7 commits "Submit" at state A, the last
history entry is the new one and the state advanced along its route. -/
theorem c10_witness :
    ∃ raLast,
      reqWDone.requestAction.getLast? = some raLast ∧
      raLast.userId = 7 ∧ raLast.actionId = 5 ∧ raLast.status = "done" ∧
      reqWDone.requestAction.length = reqW.requestAction.length + 1 ∧
      ∃ rt, raLast.routeToNextState = some rt ∧
        reqWDone.currentStateId = some rt.nextStateId :=
  @c10_advance_targets_last_entry envW storeW 1 7 5 reqW reqWDone storeWDone
    (by rfl) (by rfl)

end ProcessMaker
